import Mathlib

/-!
Shallow embedding of the trading-dashboard engine
(repository: LY-Project-Market-Dashboard) and proofs about it.

Python conventions modelled here:
* floats are modelled as exact rationals (`ℚ`); every operation the
  embedded code performs on them (field arithmetic, comparison) is exact;
* a value that may be absent (`dict.get`, `None`) is an `Option`;
* loosely typed scalars that flow through `or` / `int(...)` are a small
  sum type `PyVal`;
* `list.sort` / `sorted` are stable; we use a stable insertion sort.
-/

namespace Market

/-- Loosely typed Python scalar as it appears at the embedded call sites:
`None`, an `int`, or a `str`. -/
inductive PyVal where
  | none : PyVal
  | int (n : ℤ) : PyVal
  | str (s : String) : PyVal
deriving DecidableEq, Repr

/-- Python truthiness for the `PyVal` scalars: `None` and `0` and the
empty string are falsy, everything else truthy. -/
def PyVal.truthy : PyVal → Bool
  | .none => false
  | .int n => n ≠ 0
  | .str s => s ≠ ""

/-- Python `a or b` on loosely typed scalars: `a` when truthy, else `b`. -/
def pyOr (a b : PyVal) : PyVal :=
  if a.truthy then a else b

/-- Python `a or b` where `a` is an optional string (a missing key is
`None`, the empty string is falsy). -/
def pyOrStr (a : Option String) (b : Option String) : Option String :=
  match a with
  | Option.none => b
  | Option.some s => if s = "" then b else Option.some s

/-- Python `str.upper()` (character-wise, matching `str.upper` on the
ASCII symbols this code handles). -/
def pyUpper (s : String) : String :=
  String.mk (s.toList.map Char.toUpper)

/-- Python `int(x)` on a digit string (an optional leading sign, then
digits, surrounding ASCII whitespace allowed); `Option.none` models the
`ValueError` / `TypeError` raised otherwise. -/
def pyIntOfString (s : String) : Option ℤ :=
  let t := s.trim
  let core : List Char → Option (List Char × Bool) :=
    fun cs =>
      match cs with
      | '-' :: rest => Option.some (rest, true)
      | '+' :: rest => Option.some (rest, false)
      | rest => Option.some (rest, false)
  match core t.toList with
  | Option.none => Option.none
  | Option.some (digits, neg) =>
      if digits ≠ [] ∧ digits.all Char.isDigit then
        let v : ℤ := digits.foldl (fun acc c => acc * 10 + (c.toNat - '0'.toNat)) 0
        Option.some (if neg then -v else v)
      else Option.none

/-- Python `int(x)` on a `PyVal`: identity on ints, digit-string parse on
strings, failure (`Option.none`) on `None` and unparseable strings. -/
def pyInt : PyVal → Option ℤ
  | .none => Option.none
  | .int n => Option.some n
  | .str s => pyIntOfString s

/-- Python dict assignment `d[k] = v` on an insertion-ordered association
list: an existing key keeps its position, a new key is appended. -/
def assocSet {α : Type} : List (String × α) → String → α → List (String × α)
  | [], k, v => [(k, v)]
  | (k', v') :: rest, k, v =>
      if k' = k then (k, v) :: rest else (k', v') :: assocSet rest k v

/-- Python dict lookup `d.get(k)` on an association list. -/
def assocGet {α : Type} : List (String × α) → String → Option α
  | [], _ => Option.none
  | (k', v') :: rest, k => if k' = k then Option.some v' else assocGet rest k

/-- Stable insertion sort, descending by a rational key: models Python
`list.sort(key=..., reverse=True)`, which keeps the original order of
elements with equal keys. -/
def insertDescBy {α : Type} (key : α → ℚ) (x : α) : List α → List α
  | [] => [x]
  | y :: ys => if key y ≤ key x then x :: y :: ys else y :: insertDescBy key x ys

/-- Stable sort, descending by a rational key (see `insertDescBy`). -/
def sortDescBy {α : Type} (key : α → ℚ) : List α → List α
  | [] => []
  | x :: xs => insertDescBy key x (sortDescBy key xs)

/-- One element of the `live_prices_data` input of
`calculate_arbitrage_opportunities`: a per-venue quote dict. `volume` and
`change_pct` model optional keys read through `.get(key, 0)`. -/
structure Stock where
  symbol : String
  exchange : String
  last_price : ℚ
  volume : Option ℚ
  change_pct : Option ℚ
deriving DecidableEq, Repr

/-- One element of the list returned by
`calculate_arbitrage_opportunities` (the appended dict, field for field). -/
structure ArbEntry where
  symbol : String
  nse_price : ℚ
  bse_price : ℚ
  price_difference : ℚ
  price_difference_pct : ℚ
  profit_per_share : ℚ
  higher_exchange : String
  lower_exchange : String
  higher_price : ℚ
  lower_price : ℚ
  nse_volume : ℚ
  bse_volume : ℚ
  avg_volume : ℚ
  arbitrage_score : ℚ
  nse_change_pct : ℚ
  bse_change_pct : ℚ
  is_profitable : Bool
deriving DecidableEq, Repr

/-- The grouping loop of `calculate_arbitrage_opportunities`:
`stock_groups[symbol][exchange] = stock`, both dicts insertion-ordered. -/
def stockGroups (data : List Stock) : List (String × List (String × Stock)) :=
  data.foldl
    (fun groups stock =>
      let inner := (assocGet groups stock.symbol).getD []
      assocSet groups stock.symbol (assocSet inner stock.exchange stock))
    []

/-- The body of the opportunity loop of `calculate_arbitrage_opportunities`
for one symbol group: `Option.none` when the group lacks an NSE or BSE
quote, has a non-positive price, or falls below `min_profit_threshold`. -/
def arbEntryOfGroup (min_profit_threshold : ℚ)
    (g : String × List (String × Stock)) : Option ArbEntry :=
  match assocGet g.2 "NSE", assocGet g.2 "BSE" with
  | Option.some nse_data, Option.some bse_data =>
      let nse_price := nse_data.last_price
      let bse_price := bse_data.last_price
      if 0 < nse_price ∧ 0 < bse_price then
        let price_diff := |nse_price - bse_price|
        let price_diff_pct := price_diff / min nse_price bse_price * 100
        if price_diff_pct < min_profit_threshold then
          Option.none
        else
          let hl : String × String × ℚ × ℚ :=
            if bse_price < nse_price then ("NSE", "BSE", nse_price, bse_price)
            else ("BSE", "NSE", bse_price, nse_price)
          let nse_volume := nse_data.volume.getD 0
          let bse_volume := bse_data.volume.getD 0
          let avg_volume := (nse_volume + bse_volume) / 2
          Option.some
            { symbol := g.1
              nse_price := nse_price
              bse_price := bse_price
              price_difference := price_diff
              price_difference_pct := price_diff_pct
              profit_per_share := price_diff
              higher_exchange := hl.1
              lower_exchange := hl.2.1
              higher_price := hl.2.2.1
              lower_price := hl.2.2.2
              nse_volume := nse_volume
              bse_volume := bse_volume
              avg_volume := avg_volume
              arbitrage_score := price_diff_pct * (avg_volume / 1000000)
              nse_change_pct := nse_data.change_pct.getD 0
              bse_change_pct := bse_data.change_pct.getD 0
              is_profitable := decide ((0.05 : ℚ) < price_diff_pct) }
      else Option.none
  | _, _ => Option.none

/-- `calculate_arbitrage_opportunities` from `calculations.py`: group the
quotes by symbol, build an entry for each symbol quoted on both NSE and
BSE that passes the threshold, and sort by `arbitrage_score` descending. -/
def calculate_arbitrage_opportunities (data : List Stock)
    (min_profit_threshold : ℚ) : List ArbEntry :=
  if data = [] then []
  else
    sortDescBy ArbEntry.arbitrage_score
      ((stockGroups data).filterMap (arbEntryOfGroup min_profit_threshold))

/-- A parsed `datetime.datetime` value (microsecond precision). -/
structure DateTime where
  year : ℕ
  month : ℕ
  day : ℕ
  hour : ℕ
  minute : ℕ
  second : ℕ
  micro : ℕ
deriving DecidableEq, Repr

/-- `datetime.min`: year 1, month 1, day 1, midnight. -/
def dtMin : DateTime :=
  { year := 1, month := 1, day := 1, hour := 0, minute := 0, second := 0, micro := 0 }

/-- Gregorian leap-year rule, as `datetime` uses it. -/
def isLeapYear (y : ℕ) : Bool :=
  y % 4 = 0 ∧ (y % 100 ≠ 0 ∨ y % 400 = 0)

/-- Days in a month, as the `datetime` constructor validates them. -/
def daysInMonth (y m : ℕ) : ℕ :=
  if m = 2 then (if isLeapYear y then 29 else 28)
  else if m = 4 ∨ m = 6 ∨ m = 9 ∨ m = 11 then 30
  else 31

/-- The `datetime` constructor's range validation: `ValueError` outside
year 1–9999, month 1–12, day 1–days-in-month, hour 0–23, minute 0–59,
second 0–59, microsecond 0–999999. -/
def validDateTime (dt : DateTime) : Bool :=
  1 ≤ dt.year ∧ dt.year ≤ 9999 ∧ 1 ≤ dt.month ∧ dt.month ≤ 12 ∧
    1 ≤ dt.day ∧ dt.day ≤ daysInMonth dt.year dt.month ∧
    dt.hour ≤ 23 ∧ dt.minute ≤ 59 ∧ dt.second ≤ 59 ∧ dt.micro ≤ 999999

/-- Injective, order-preserving encoding of a valid `DateTime` into `ℕ`
(fields are below their mixed radix), used as a sort key. -/
def dtKey (dt : DateTime) : ℕ :=
  (((((dt.year * 13 + dt.month) * 32 + dt.day) * 24 + dt.hour) * 60 +
        dt.minute) * 60 + dt.second) * 1000000 + dt.micro

/-- One token of a `strptime` format string: a literal character, a
whitespace run, or one of the numeric directives the code uses. -/
inductive FmtTok where
  | lit (c : Char)
  | ws
  | year4
  | month2
  | day2
  | hour2
  | minute2
  | second2
  | micro6
deriving DecidableEq, Repr

/-- The fields accumulated while parsing, with `strptime`'s defaults
(year 1900, month 1, day 1, midnight). -/
structure RawDT where
  y : ℕ := 1900
  mo : ℕ := 1
  d : ℕ := 1
  h : ℕ := 0
  mi : ℕ := 0
  s : ℕ := 0
  f : ℕ := 0
deriving DecidableEq, Repr

/-- Numeric value of a digit run. -/
def digitsToNat (cs : List Char) : ℕ :=
  cs.foldl (fun acc c => acc * 10 + (c.toNat - '0'.toNat)) 0

/-- Python whitespace characters stripped by `str.strip()` and matched by
whitespace in a `strptime` format. -/
def isPySpace (c : Char) : Bool :=
  c = ' ' ∨ c = '\t' ∨ c = '\n' ∨ c = '\r' ∨ c = '\x0b' ∨ c = '\x0c'

/-- Match a format token list against the input, `strptime` style: a
numeric directive consumes the maximal digit run, which must have the
directive's permitted width and value range (`%Y` exactly 4 digits; the
two-digit directives 1–2 digits, months 1–12, days 1–31, hours 0–23,
minutes 0–59, seconds 0–61; `%f` 1–6 digits, padded right to
microseconds); whitespace in the format consumes one or more whitespace
characters; the whole input must be consumed. -/
def runFmt : List FmtTok → List Char → RawDT → Option RawDT
  | [], [], r => Option.some r
  | [], _ :: _, _ => Option.none
  | .lit _ :: _, [], _ => Option.none
  | .lit c :: fs, x :: xs, r =>
      if x = c then runFmt fs xs r else Option.none
  | .ws :: fs, xs, r =>
      let run := xs.takeWhile isPySpace
      if run = [] then Option.none
      else runFmt fs (xs.dropWhile isPySpace) r
  | .year4 :: fs, xs, r =>
      let run := xs.takeWhile Char.isDigit
      if run.length = 4 then
        runFmt fs (xs.dropWhile Char.isDigit) { r with y := digitsToNat run }
      else Option.none
  | .month2 :: fs, xs, r =>
      let run := xs.takeWhile Char.isDigit
      let v := digitsToNat run
      if (run.length = 1 ∨ run.length = 2) ∧ 1 ≤ v ∧ v ≤ 12 then
        runFmt fs (xs.dropWhile Char.isDigit) { r with mo := v }
      else Option.none
  | .day2 :: fs, xs, r =>
      let run := xs.takeWhile Char.isDigit
      let v := digitsToNat run
      if (run.length = 1 ∨ run.length = 2) ∧ 1 ≤ v ∧ v ≤ 31 then
        runFmt fs (xs.dropWhile Char.isDigit) { r with d := v }
      else Option.none
  | .hour2 :: fs, xs, r =>
      let run := xs.takeWhile Char.isDigit
      let v := digitsToNat run
      if (run.length = 1 ∨ run.length = 2) ∧ v ≤ 23 then
        runFmt fs (xs.dropWhile Char.isDigit) { r with h := v }
      else Option.none
  | .minute2 :: fs, xs, r =>
      let run := xs.takeWhile Char.isDigit
      let v := digitsToNat run
      if (run.length = 1 ∨ run.length = 2) ∧ v ≤ 59 then
        runFmt fs (xs.dropWhile Char.isDigit) { r with mi := v }
      else Option.none
  | .second2 :: fs, xs, r =>
      let run := xs.takeWhile Char.isDigit
      let v := digitsToNat run
      if (run.length = 1 ∨ run.length = 2) ∧ v ≤ 61 then
        runFmt fs (xs.dropWhile Char.isDigit) { r with s := v }
      else Option.none
  | .micro6 :: fs, xs, r =>
      let run := xs.takeWhile Char.isDigit
      if 1 ≤ run.length ∧ run.length ≤ 6 then
        runFmt fs (xs.dropWhile Char.isDigit)
          { r with f := digitsToNat run * 10 ^ (6 - run.length) }
      else Option.none

/-- `datetime.strptime(s, fmt)`: match the format, then apply the
constructor's validation; `Option.none` models `ValueError`. -/
def pyStrptime (fmt : List FmtTok) (s : String) : Option DateTime :=
  match runFmt fmt s.toList {} with
  | Option.none => Option.none
  | Option.some r =>
      let dt : DateTime :=
        { year := r.y, month := r.mo, day := r.d, hour := r.h,
          minute := r.mi, second := r.s, micro := r.f }
      if validDateTime dt then Option.some dt else Option.none

/-- The format `"%Y-%m-%d"`. -/
def fmtYmd : List FmtTok :=
  [.year4, .lit '-', .month2, .lit '-', .day2]

/-- The format `"%Y-%m-%d %H:%M:%S"`. -/
def fmtYmdHMS : List FmtTok :=
  fmtYmd ++ [.ws, .hour2, .lit ':', .minute2, .lit ':', .second2]

/-- The format `"%Y-%m-%dT%H:%M:%S"`. -/
def fmtYmdTHMS : List FmtTok :=
  fmtYmd ++ [.lit 'T', .hour2, .lit ':', .minute2, .lit ':', .second2]

/-- The format `"%Y-%m-%dT%H:%M:%S.%fZ"`. -/
def fmtYmdTHMSfZ : List FmtTok :=
  fmtYmdTHMS ++ [.lit '.', .micro6, .lit 'Z']

/-- Python `str.strip()`: drop leading and trailing whitespace. -/
def pyStrip (s : String) : String :=
  String.mk (((s.toList.dropWhile isPySpace).reverse.dropWhile isPySpace).reverse)

/-- Uppercase 3-letter month abbreviation: `strftime("%b")` followed by
`.upper()`. -/
def monthAbbrUpper (m : ℕ) : String :=
  if m = 1 then "JAN" else if m = 2 then "FEB" else if m = 3 then "MAR"
  else if m = 4 then "APR" else if m = 5 then "MAY" else if m = 6 then "JUN"
  else if m = 7 then "JUL" else if m = 8 then "AUG" else if m = 9 then "SEP"
  else if m = 10 then "OCT" else if m = 11 then "NOV" else "DEC"

/-- `strftime("%y")`: the year modulo 100, zero-padded to two digits. -/
def twoDigitYear (y : ℕ) : String :=
  let v := y % 100
  if v < 10 then "0" ++ toString v else toString v

/-- `strftime("%y%b").upper()`: 2-digit year then uppercase 3-letter
month. -/
def strftimeYbUpper (dt : DateTime) : String :=
  twoDigitYear dt.year ++ monthAbbrUpper dt.month

/-- The alphanumeric-only cleaned uppercase symbol:
`''.join(ch for ch in stock_symbol.upper() if ch.isalnum())`. -/
def cleanedSymbol (s : String) : String :=
  String.mk ((pyUpper s).toList.filter Char.isAlphanum)

/-- The four expiry formats `format_futures_order_symbol` tries, in
order. -/
def pyFmtList : List (List FmtTok) :=
  [fmtYmd, fmtYmdHMS, fmtYmdTHMS, fmtYmdTHMSfZ]

/-- Try `strptime` with each format in order; first success wins. -/
def strptimeFirst (s : String) : List (List FmtTok) → Option DateTime
  | [] => Option.none
  | fmt :: rest =>
      match pyStrptime fmt s with
      | Option.some expiry_date => Option.some expiry_date
      | Option.none => strptimeFirst s rest

/-- `format_futures_order_symbol` from `calculations.py`: empty symbol or
empty expiry short-circuit to the uppercased raw symbol (empty string if
the symbol is empty); otherwise parse the stripped expiry under the four
formats and return `<cleaned symbol><2-digit year><3-letter month>`, or
just the cleaned symbol when no format parses. -/
def format_futures_order_symbol (stock_symbol expiry_str : String) : String :=
  if stock_symbol = "" ∨ expiry_str = "" then
    if stock_symbol ≠ "" then pyUpper stock_symbol else ""
  else
    let stock_clean := cleanedSymbol stock_symbol
    let expiry_clean := pyStrip expiry_str
    match strptimeFirst expiry_clean pyFmtList with
    | Option.none => stock_clean
    | Option.some expiry_date => stock_clean ++ strftimeYbUpper expiry_date

/-- One raw lifecycle event returned by the gateway's
`order_history(order_id)`; every field is read through `.get` with a
default, so all are optional. -/
structure OrderEvent where
  status : Option String
  filled_quantity : Option ℤ
  pending_quantity : Option ℤ
  exchange_timestamp : Option String
deriving DecidableEq, Repr

/-- The parsed `exchange_timestamp` of an event: missing or empty
timestamps do not parse, other strings go through
`strptime('%Y-%m-%d %H:%M:%S')`. -/
def eventTimestamp (e : OrderEvent) : Option DateTime :=
  let timestamp_str := e.exchange_timestamp.getD ""
  if timestamp_str ≠ "" then pyStrptime fmtYmdHMS timestamp_str
  else Option.none

/-- `get_timestamp` from `check_order_status` in
`100%working-backup/v3-working-test.py`: the sort key of an event —
its parsed timestamp, or `datetime.min` when missing or unparseable. -/
def get_timestamp (e : OrderEvent) : ℕ :=
  match eventTimestamp e with
  | Option.some dt => dtKey dt
  | Option.none => dtKey dtMin

/-- `sorted(order_history, key=get_timestamp, reverse=False)`: Python's
stable ascending sort, which `List.insertionSort` on the key order
reproduces element for element. -/
def sortEventsAsc (order_history : List OrderEvent) : List OrderEvent :=
  List.insertionSort (fun a b => get_timestamp a ≤ get_timestamp b) order_history

/-- The detailed display status `check_order_status` derives from the
selected latest event. -/
def displayStatus (latest_status : OrderEvent) : String :=
  let status := latest_status.status.getD "UNKNOWN"
  let filled_quantity := latest_status.filled_quantity.getD 0
  let pending_quantity := latest_status.pending_quantity.getD 0
  if status = "COMPLETE" then s!"COMPLETE ({filled_quantity} filled)"
  else if status = "OPEN" ∧ 0 < pending_quantity then
    s!"OPEN PENDING ({pending_quantity} pending)"
  else if status = "OPEN" then "OPEN"
  else if status = "CANCELLED" then "CANCELLED"
  else if status = "REJECTED" then "REJECTED"
  else status

/-- `check_order_status` from `100%working-backup/v3-working-test.py`,
given the event history the gateway returned for the order id: sort the
events ascending by `get_timestamp`, take the last as authoritative, and
format its status; an empty history yields `None`. -/
def check_order_status (order_history : List OrderEvent) : Option String :=
  if order_history ≠ [] then
    (sortEventsAsc order_history).getLast?.map displayStatus
  else Option.none

/-- Substring test on character lists (`needle in hay`). -/
def containsSub (needle : List Char) : List Char → Bool
  | [] => needle.isEmpty
  | c :: rest => needle.isPrefixOf (c :: rest) || containsSub needle rest

/-- Python `pat in hay` on strings. -/
def strContains (hay pat : String) : Bool :=
  containsSub pat.toList hay.toList

/-- The currency token list of `auto_detect_exchange` — note the fifth,
bare `INR` entry. -/
def currencyTokens : List String :=
  ["USDINR", "EURINR", "GBPINR", "JPYINR", "INR"]

/-- `auto_detect_exchange` from `Version_history/place_order_logics.py`
(the same logic appears inline in `place_order_with_kite` in
`100%working-backup/v3-working-test.py`): two or more digits make a
derivative, routed to CDS when the uppercased symbol contains a currency
token, else NFO; otherwise NSE equity. -/
def auto_detect_exchange (symbol : String) : String :=
  if 2 ≤ symbol.toList.countP Char.isDigit then
    if currencyTokens.any (fun curr => strContains (pyUpper symbol) curr) then "CDS"
    else "NFO"
  else "NSE"

/-- Modelled from the spec's words, for comparison with
`auto_detect_exchange`: the spec recognizes only the four fixed currency
codes suffixed with the INR base-currency marker, with no bare-marker
entry. -/
def specCurrencyTokens : List String :=
  ["USDINR", "EURINR", "GBPINR", "JPYINR"]

/-- The classification the spec describes, differing from the source only
in the token list. -/
def specAutoDetectExchange (symbol : String) : String :=
  if 2 ≤ symbol.toList.countP Char.isDigit then
    if specCurrencyTokens.any (fun curr => strContains (pyUpper symbol) curr) then
      "CDS"
    else "NFO"
  else "NSE"

/-- `calculate_margin_required` from `calculations.py`: approximate margin
for an order; CNC is full notional, MIS is 30 % of notional, NRML is full
notional, any other product falls back to 30 % of notional. -/
def calculate_margin_required (price : ℚ) (quantity : ℚ) (product : String) : ℚ :=
  let order_value := price * quantity
  if product = "CNC" then
    order_value
  else if product = "MIS" then
    order_value * (30 / 100)
  else if product = "NRML" then
    order_value
  else
    order_value * (30 / 100)

/-- `kiteconnect` constant `VARIETY_REGULAR`. -/
def VARIETY_REGULAR : String := "regular"

/-- `kiteconnect` constant `TRANSACTION_TYPE_BUY`. -/
def TRANSACTION_TYPE_BUY : String := "BUY"

/-- `kiteconnect` constant `TRANSACTION_TYPE_SELL`. -/
def TRANSACTION_TYPE_SELL : String := "SELL"

/-- `kiteconnect` constant `PRODUCT_CNC`. -/
def PRODUCT_CNC : String := "CNC"

/-- `kiteconnect` constant `PRODUCT_MIS`. -/
def PRODUCT_MIS : String := "MIS"

/-- `kiteconnect` constant `PRODUCT_NRML`. -/
def PRODUCT_NRML : String := "NRML"

/-- `kiteconnect` constant `ORDER_TYPE_MARKET`. -/
def ORDER_TYPE_MARKET : String := "MARKET"

/-- `kiteconnect` constant `ORDER_TYPE_LIMIT`. -/
def ORDER_TYPE_LIMIT : String := "LIMIT"

/-- `kiteconnect` constant `ORDER_TYPE_SL`. -/
def ORDER_TYPE_SL : String := "SL"

/-- `kiteconnect` constant `ORDER_TYPE_SLM` (the venue string is
`"SL-M"`). -/
def ORDER_TYPE_SLM : String := "SL-M"

/-- `kiteconnect` exchange constants. -/
def EXCHANGE_NSE : String := "NSE"

/-- `kiteconnect` exchange constant BSE. -/
def EXCHANGE_BSE : String := "BSE"

/-- `kiteconnect` exchange constant NFO. -/
def EXCHANGE_NFO : String := "NFO"

/-- `kiteconnect` exchange constant BFO. -/
def EXCHANGE_BFO : String := "BFO"

/-- `kiteconnect` exchange constant CDS. -/
def EXCHANGE_CDS : String := "CDS"

/-- `kiteconnect` exchange constant MCX. -/
def EXCHANGE_MCX : String := "MCX"

/-- The `transaction_map` of `place_order` in `order_manager.py`. -/
def transaction_map : List (String × String) :=
  [("BUY", TRANSACTION_TYPE_BUY), ("SELL", TRANSACTION_TYPE_SELL)]

/-- The `product_map` of `place_order`. -/
def product_map : List (String × String) :=
  [("CNC", PRODUCT_CNC), ("MIS", PRODUCT_MIS), ("NRML", PRODUCT_NRML)]

/-- The `order_type_map` of `place_order`. -/
def order_type_map : List (String × String) :=
  [("MARKET", ORDER_TYPE_MARKET), ("LIMIT", ORDER_TYPE_LIMIT),
   ("SL", ORDER_TYPE_SL), ("SLM", ORDER_TYPE_SLM)]

/-- The `exchange_map` of `place_order`. -/
def exchange_map : List (String × String) :=
  [("NSE", EXCHANGE_NSE), ("BSE", EXCHANGE_BSE), ("NFO", EXCHANGE_NFO),
   ("BFO", EXCHANGE_BFO), ("CDS", EXCHANGE_CDS), ("MCX", EXCHANGE_MCX)]

deriving instance DecidableEq for Except

/-- The keyword arguments `place_order` passes to `kite.place_order`. -/
structure OrderRequest where
  variety : String
  exchange : String
  tradingsymbol : Option String
  transaction_type : String
  quantity : ℤ
  product : String
  order_type : String
  price : Option ℚ
  validity : Option String
  disclosed_quantity : Option ℤ
  trigger_price : Option ℚ
  squareoff : Option ℚ
  stoploss : Option ℚ
  trailing_stoploss : Option ℚ
  tag : Option String
deriving DecidableEq, Repr

/-- One call the orchestrator makes on the gateway. The orchestrator code
contains no cancel call, so `cancelOrder` is never emitted — the
constructor exists so that absence is a statement, not a tautology of the
type. -/
inductive GatewayAction where
  | placeOrder (req : OrderRequest)
  | cancelOrder (order_id : String)
deriving DecidableEq, Repr

/-- The per-call summary of a gateway action: transaction type, exchange,
product, order type, price and quantity of a placed order; `Option.none`
for a cancellation. -/
def GatewayAction.reqSummary :
    GatewayAction → Option (String × String × String × String × Option ℚ × ℤ)
  | .placeOrder r =>
      Option.some (r.transaction_type, r.exchange, r.product, r.order_type,
        r.price, r.quantity)
  | .cancelOrder _ => Option.none

/-- The dict `place_order` returns. -/
structure OrderResult where
  success : Bool
  order_id : Option String
  message : String
  margin_info : Option (ℚ × ℚ)
deriving DecidableEq, Repr

/-- `re.search(r'<pat>([\d.]+)', msg)`: the first occurrence of the
literal pattern followed by a non-empty maximal run of digits and dots;
returns that run. -/
def searchNumAfter (pat : List Char) : List Char → Option (List Char)
  | [] => Option.none
  | c :: rest =>
      if pat.isPrefixOf (c :: rest) then
        let run := ((c :: rest).drop pat.length).takeWhile
          (fun ch => ch.isDigit || ch = '.')
        if run ≠ [] then Option.some run else searchNumAfter pat rest
      else searchNumAfter pat rest

/-- Python `float()` on a run of digits and dots: at most one dot and at
least one digit, else `ValueError` (`Option.none`). -/
def pyFloatOfRun (cs : List Char) : Option ℚ :=
  if cs.count '.' ≤ 1 ∧ cs.any Char.isDigit then
    let intPart := cs.takeWhile (fun ch => ch ≠ '.')
    let fracPart := (cs.dropWhile (fun ch => ch ≠ '.')).drop 1
    Option.some ((digitsToNat intPart : ℚ) +
      (digitsToNat fracPart : ℚ) / (10 : ℚ) ^ fracPart.length)
  else Option.none

/-- The margin extraction in `place_order`'s error handler: when the
message mentions both required and available margin, pull both numbers
out; any failure leaves the info empty. -/
def extract_margin_info (error_msg : String) : Option (ℚ × ℚ) :=
  if strContains error_msg "Required margin" ∧
      strContains error_msg "available margin" then
    match searchNumAfter "Required margin is ".toList error_msg.toList,
        searchNumAfter "available margin is ".toList error_msg.toList with
    | Option.some rrun, Option.some arun =>
        match pyFloatOfRun rrun, pyFloatOfRun arun with
        | Option.some required, Option.some available =>
            Option.some (required, available)
        | _, _ => Option.none
    | _, _ => Option.none
  else Option.none

/-- The normalisation block of `place_order` in `order_manager.py`: map
the uppercased transaction / product / order-type / exchange onto the
Kite constants (an unknown key passes through unchanged), blank the price
for market orders, and assemble the keyword arguments for the gateway. -/
def buildOrderRequest (symbol : Option String) (exchange : String)
    (transaction_type : String) (quantity : ℤ) (price : Option ℚ)
    (product : String) (order_type : String) (validity : Option String)
    (disclosed_quantity : Option ℤ)
    (trigger_price squareoff stoploss trailing_stoploss : Option ℚ)
    (tag : Option String) : OrderRequest :=
  let tx_key := pyUpper transaction_type
  let transaction_value := (assocGet transaction_map tx_key).getD transaction_type
  let product_key := pyUpper product
  let product_value := (assocGet product_map product_key).getD product
  let order_type_key := pyUpper order_type
  let order_type_value := (assocGet order_type_map order_type_key).getD order_type
  let exchange_key := pyUpper exchange
  let exchange_value := (assocGet exchange_map exchange_key).getD exchange
  let price_value :=
    if order_type_value = ORDER_TYPE_MARKET then Option.none else price
  { variety := VARIETY_REGULAR, exchange := exchange_value,
    tradingsymbol := symbol, transaction_type := transaction_value,
    quantity := quantity, product := product_value,
    order_type := order_type_value, price := price_value,
    validity := validity, disclosed_quantity := disclosed_quantity,
    trigger_price := trigger_price, squareoff := squareoff,
    stoploss := stoploss, trailing_stoploss := trailing_stoploss, tag := tag }

/-- `place_order` from `order_manager.py`, against an abstract gateway
(`kite.place_order` returning an order id, or raising with a message):
returns the result dict and the sequence of gateway calls made. -/
def place_order (gateway : OrderRequest → Except String String)
    (symbol : Option String) (exchange : String) (transaction_type : String)
    (quantity : ℤ) (price : Option ℚ) (product : String) (order_type : String)
    (validity : Option String) (disclosed_quantity : Option ℤ)
    (trigger_price squareoff stoploss trailing_stoploss : Option ℚ)
    (tag : Option String) : OrderResult × List GatewayAction :=
  let req := buildOrderRequest symbol exchange transaction_type quantity price
    product order_type validity disclosed_quantity trigger_price squareoff
    stoploss trailing_stoploss tag
  let result :=
    match gateway req with
    | Except.ok order_id =>
        { success := true, order_id := Option.some order_id,
          message := "Order placed successfully: " ++ order_id,
          margin_info := Option.none }
    | Except.error error_msg =>
        { success := false, order_id := Option.none, message := error_msg,
          margin_info := extract_margin_info error_msg }
  (result, [GatewayAction.placeOrder req])

/-- One element of the `order_sequence` list `execute_order_sequence`
consumes: `symbol`, `exchange`, `quantity`, `price` are required keys,
the rest are read through `.get`. -/
structure OrderInstr where
  transaction_type : Option String
  action : Option String
  market : Option String
  symbol : String
  exchange : String
  quantity : ℤ
  price : Option ℚ
  product : Option String
  order_type : Option String
deriving DecidableEq, Repr

/-- The per-leg report `execute_order_sequence` appends: a copy of the
order instruction together with the `place_order` result. -/
structure OrderReport where
  order : OrderInstr
  result : OrderResult
deriving DecidableEq, Repr

/-- `execute_order_sequence` from `order_manager.py`: submit every leg in
order, unconditionally — an earlier leg's failure never stops a later
leg — collecting one report per leg and the gateway calls made. -/
def execute_order_sequence (gateway : OrderRequest → Except String String) :
    List OrderInstr → List OrderReport × List GatewayAction
  | [] => ([], [])
  | order :: rest =>
      let transaction_type :=
        match order.transaction_type with
        | Option.some tt => tt
        | Option.none =>
            if pyUpper (order.action.getD "") = "BUY" then "BUY" else "SELL"
      let pr := place_order gateway (Option.some order.symbol) order.exchange
        transaction_type order.quantity order.price (order.product.getD "MIS")
        (order.order_type.getD "LIMIT") Option.none Option.none Option.none
        Option.none Option.none Option.none Option.none
      let restRes := execute_order_sequence gateway rest
      ({ order := order, result := pr.1 } :: restRes.1, pr.2 ++ restRes.2)

/-- `place_arbitrage_orders` from `order_manager.py`: buy at the
lower-priced venue, sell at the higher-priced one, both MIS limit legs at
the snapshot prices, submitted through `execute_order_sequence`. -/
def place_arbitrage_orders (gateway : OrderRequest → Except String String)
    (arbitrage_opportunity : ArbEntry) (quantity : ℤ) :
    List OrderReport × List GatewayAction :=
  let symbol := arbitrage_opportunity.symbol
  let nse_price := arbitrage_opportunity.nse_price
  let bse_price := arbitrage_opportunity.bse_price
  let higher_exchange := arbitrage_opportunity.higher_exchange
  let bs : String × String × ℚ × ℚ :=
    if higher_exchange = "NSE" then ("BSE", "NSE", bse_price, nse_price)
    else ("NSE", "BSE", nse_price, bse_price)
  let order_sequence : List OrderInstr :=
    [{ transaction_type := Option.none, action := Option.some "BUY",
       market := Option.some "CASH", symbol := symbol, exchange := bs.1,
       quantity := quantity, price := Option.some bs.2.2.1,
       product := Option.some "MIS", order_type := Option.some "LIMIT" },
     { transaction_type := Option.none, action := Option.some "SELL",
       market := Option.some "CASH", symbol := symbol, exchange := bs.2.1,
       quantity := quantity, price := Option.some bs.2.2.2,
       product := Option.some "MIS", order_type := Option.some "LIMIT" }]
  execute_order_sequence gateway order_sequence

/-- The gateway request the Buy leg of a cross-venue pair produces after
`place_order`'s normalisation. -/
def arbBuyRequest (o : ArbEntry) (quantity : ℤ) : OrderRequest :=
  { variety := VARIETY_REGULAR,
    exchange := if o.higher_exchange = "NSE" then EXCHANGE_BSE else EXCHANGE_NSE,
    tradingsymbol := Option.some o.symbol,
    transaction_type := TRANSACTION_TYPE_BUY, quantity := quantity,
    product := PRODUCT_MIS, order_type := ORDER_TYPE_LIMIT,
    price := Option.some
      (if o.higher_exchange = "NSE" then o.bse_price else o.nse_price),
    validity := Option.none, disclosed_quantity := Option.none,
    trigger_price := Option.none, squareoff := Option.none,
    stoploss := Option.none, trailing_stoploss := Option.none,
    tag := Option.none }

/-- The gateway request the Sell leg of a cross-venue pair produces after
`place_order`'s normalisation. -/
def arbSellRequest (o : ArbEntry) (quantity : ℤ) : OrderRequest :=
  { variety := VARIETY_REGULAR,
    exchange := if o.higher_exchange = "NSE" then EXCHANGE_NSE else EXCHANGE_BSE,
    tradingsymbol := Option.some o.symbol,
    transaction_type := TRANSACTION_TYPE_SELL, quantity := quantity,
    product := PRODUCT_MIS, order_type := ORDER_TYPE_LIMIT,
    price := Option.some
      (if o.higher_exchange = "NSE" then o.nse_price else o.bse_price),
    validity := Option.none, disclosed_quantity := Option.none,
    trigger_price := Option.none, squareoff := Option.none,
    stoploss := Option.none, trailing_stoploss := Option.none,
    tag := Option.none }

/-- The opportunity dict `place_cash_futures_orders` consumes. -/
structure CFOpportunity where
  symbol : String
  cash_price : Option ℚ
  futures_price : Option ℚ
  futures_symbol : Option String
  futures_symbol_api : Option String
  lot_size : PyVal
deriving DecidableEq, Repr

/-- The per-leg dict `place_cash_futures_orders` appends to `results`. -/
structure CFLegReport where
  action : String
  market : String
  symbol : Option String
  exchange : String
  quantity : ℤ
  lots : ℤ
  lot_size : ℤ
  price : Option ℚ
  result : OrderResult
deriving DecidableEq, Repr

/-- The lots normalisation of `place_cash_futures_orders`
(`lots or 1`, `int(...)` with fallback 1, clamp to ≥ 1). -/
def clampLots (lots : PyVal) : ℤ :=
  let lots_int := pyOr lots (PyVal.int 1)
  let v := (pyInt lots_int).getD 1
  if v < 1 then 1 else v

/-- The lot-size resolution of `place_cash_futures_orders`:
`opportunity.get('lot_size') or LOT_SIZE_MAP.get(symbol.upper()) or 1`,
then `int(...)` with fallback 1, then clamp to ≥ 1. -/
def resolveCFLotSize (lot_size_map : List (String × ℤ))
    (opportunity : CFOpportunity) : ℤ :=
  let from_map : PyVal :=
    match assocGet lot_size_map (pyUpper opportunity.symbol) with
    | Option.some n => PyVal.int n
    | Option.none => PyVal.none
  let raw := pyOr opportunity.lot_size (pyOr from_map (PyVal.int 1))
  let v := (pyInt raw).getD 1
  if v < 1 then 1 else v

/-- `place_cash_futures_orders` from `order_manager.py`: buy the cash leg
on NSE first, then sell the futures leg on NFO, both as market orders
with no price, quantity `lot_size × lots` after clamping. -/
def place_cash_futures_orders (gateway : OrderRequest → Except String String)
    (lot_size_map : List (String × ℤ)) (opportunity : CFOpportunity)
    (lots : PyVal) (cash_product futures_product : String) :
    List CFLegReport × List GatewayAction :=
  let symbol := opportunity.symbol
  let cash_price := opportunity.cash_price.getD 0
  let futures_price := opportunity.futures_price.getD 0
  let futures_symbol_raw := opportunity.futures_symbol
  let futures_symbol_api := pyOrStr opportunity.futures_symbol_api futures_symbol_raw
  let lot_size := resolveCFLotSize lot_size_map opportunity
  let lots_int := clampLots lots
  let quantity := lot_size * lots_int
  let order_type_value := "MARKET"
  let fire_order := fun (action market exchange : String)
      (tradingsymbol : Option String) (_price : ℚ) (product : String) =>
    let pr := place_order gateway tradingsymbol exchange action quantity
      Option.none product order_type_value Option.none Option.none Option.none
      Option.none Option.none Option.none Option.none
    (({ action := action, market := market, symbol := tradingsymbol,
        exchange := exchange, quantity := quantity, lots := lots_int,
        lot_size := lot_size, price := Option.none,
        result := pr.1 } : CFLegReport), pr.2)
  let leg1 := fire_order "BUY" "CASH" "NSE" (Option.some symbol) cash_price
    cash_product
  let leg2 := fire_order "SELL" "FUTURES" "NFO" futures_symbol_api
    futures_price futures_product
  ([leg1.1, leg2.1], leg1.2 ++ leg2.2)

/-- A demonstration gateway that accepts buy requests with order id
`ORD1` and rejects everything else. -/
def gwBuyOnly : OrderRequest → Except String String :=
  fun req =>
    if req.transaction_type = "BUY" then Except.ok "ORD1"
    else Except.error "Insufficient funds"

/-- A demonstration gateway that accepts every request. -/
def gwAcceptAll : OrderRequest → Except String String :=
  fun _ => Except.ok "OID"

/-- A concrete cross-venue opportunity for the pair-submission scenario:
NSE is the higher venue, so the pair buys on BSE and sells on NSE. -/
def oppPairDemo : ArbEntry :=
  { symbol := "TCS", nse_price := 3501, bse_price := 3500,
    price_difference := 1, price_difference_pct := 1 / 35,
    profit_per_share := 1, higher_exchange := "NSE", lower_exchange := "BSE",
    higher_price := 3501, lower_price := 3500, nse_volume := 0,
    bse_volume := 0, avg_volume := 0, arbitrage_score := 0,
    nse_change_pct := 0, bse_change_pct := 0, is_profitable := false }

/-- A concrete cash-futures opportunity with lot size 50 supplied by the
opportunity record. -/
def cfOppDemo : CFOpportunity :=
  { symbol := "INFY", cash_price := Option.some 1500,
    futures_price := Option.some 1510,
    futures_symbol := Option.some "INFY25NOV",
    futures_symbol_api := Option.some "INFY25NOVFUT",
    lot_size := PyVal.int 50 }

/-- Days since the civil epoch 1970-01-01 (Gregorian), the standard
days-from-civil computation `datetime.date` subtraction follows. -/
def daysFromCivil (y m d : ℤ) : ℤ :=
  let yAdj := if m ≤ 2 then y - 1 else y
  let era := Int.fdiv yAdj 400
  let yoe := yAdj - era * 400
  let mp := Int.emod (m + 9) 12
  let doy := Int.fdiv (153 * mp + 2) 5 + d - 1
  let doe := yoe * 365 + Int.fdiv yoe 4 - Int.fdiv yoe 100 + doy
  era * 146097 + doe - 719468

/-- `(expiry_date - current_date).days` for an expiry parsed at midnight:
the floor of the difference in days, one less when the current time of
day is past midnight. -/
def timedeltaDays (expiry now : DateTime) : ℤ :=
  let dd := daysFromCivil expiry.year expiry.month expiry.day -
    daysFromCivil now.year now.month now.day
  if now.hour = 0 ∧ now.minute = 0 ∧ now.second = 0 ∧ now.micro = 0 then dd
  else dd - 1

/-- One row of the NFO instrument dump `kite.instruments("NFO")` with the
fields `get_futures_contracts` reads; `expiry` is the row value as a
string (`str(fut_row['expiry'])`), `lot_size` is loosely typed. -/
structure InstRow where
  name : String
  tradingsymbol : String
  instrument_type : String
  expiry : String
  lot_size : PyVal
deriving DecidableEq, Repr

/-- The per-stock value `get_futures_contracts` stores in
`futures_data`. -/
structure FutData where
  tradingsymbol : String
  order_tradingsymbol : String
  exchange : String
  expiry : String
  days_to_expiry : ℤ
  lot_size : ℤ
deriving DecidableEq, Repr

/-- The inner row loop of `get_futures_contracts`: walk the expiry-sorted
futures rows, skip rows whose expiry does not parse (the `except` /
`continue`) or is not strictly in the future, and build the record for
the first valid row (the `break`); the lot size is the override table's
value if present, else `int(fut_row.get('lot_size', 1))` with fallback 1,
clamped to at least 1. -/
def firstValidFut (lot_size_map : List (String × ℤ)) (now : DateTime)
    (stock : String) : List InstRow → Option FutData
  | [] => Option.none
  | fut_row :: rest =>
      let expiry_str := fut_row.expiry
      let datePart :=
        if strContains expiry_str "T" then
          String.mk (expiry_str.toList.takeWhile (fun c => c ≠ 'T'))
        else expiry_str
      match pyStrptime fmtYmd datePart with
      | Option.none => firstValidFut lot_size_map now stock rest
      | Option.some expiry_date =>
          let days_to_expiry := timedeltaDays expiry_date now
          if 0 < days_to_expiry then
            let stock_key := pyUpper stock
            let lot0 : ℤ :=
              match assocGet lot_size_map stock_key with
              | Option.some v => v
              | Option.none => (pyInt fut_row.lot_size).getD 1
            let lot_size_value := if lot0 < 1 then 1 else lot0
            Option.some
              { tradingsymbol := fut_row.tradingsymbol,
                order_tradingsymbol :=
                  format_futures_order_symbol stock expiry_str,
                exchange := "NFO", expiry := datePart,
                days_to_expiry := days_to_expiry,
                lot_size := lot_size_value }
          else firstValidFut lot_size_map now stock rest

/-- The per-stock body of `get_futures_contracts`: filter rows matching
the stock by `name` or `tradingsymbol` starting with it and instrument
type `FUT`, sort ascending by expiry, and take the first valid future. -/
def futForStock (lot_size_map : List (String × ℤ)) (instruments : List InstRow)
    (now : DateTime) (stock : String) : Option FutData :=
  let stock_futures := instruments.filter
    (fun r => (r.name = stock ∨ stock.toList.isPrefixOf r.tradingsymbol.toList)
      ∧ r.instrument_type = "FUT")
  firstValidFut lot_size_map now stock
    (List.insertionSort (fun a b => a.expiry ≤ b.expiry) stock_futures)

/-- `get_futures_contracts` from `calculations.py`, with the instrument
dump and the current datetime as inputs: the insertion-ordered
`futures_data` dict mapping each stock to its resolved near contract. -/
def get_futures_contracts (lot_size_map : List (String × ℤ))
    (instruments : List InstRow) (now : DateTime)
    (stock_symbols : List String) : List (String × FutData) :=
  stock_symbols.foldl
    (fun acc stock =>
      match futForStock lot_size_map instruments now stock with
      | Option.some fut_data => assocSet acc stock fut_data
      | Option.none => acc)
    []

/-- A concrete NFO row whose venue-reported lot size is 0. -/
def instRowDemo : InstRow :=
  { name := "ABB", tradingsymbol := "ABB25NOVFUT", instrument_type := "FUT",
    expiry := "2025-11-27", lot_size := PyVal.int 0 }

/-- A concrete current datetime, 2025-10-12 09:30:00. -/
def nowDemo : DateTime :=
  { year := 2025, month := 10, day := 12, hour := 9, minute := 30,
    second := 0, micro := 0 }

/-- The resolved instrument for `instRowDemo` at `nowDemo`: the zero lot
size is clamped to 1. -/
def fdDemo : FutData :=
  { tradingsymbol := "ABB25NOVFUT", order_tradingsymbol := "ABB25NOV",
    exchange := "NFO", expiry := "2025-11-27", days_to_expiry := 45,
    lot_size := 1 }

/-- A concrete cash-futures opportunity whose record supplies a negative
lot size. -/
def cfOppNeg : CFOpportunity :=
  { symbol := "WIPRO", cash_price := Option.some 250,
    futures_price := Option.some 252,
    futures_symbol := Option.some "WIPRO25NOV",
    futures_symbol_api := Option.some "WIPRO25NOVFUT",
    lot_size := PyVal.int (-5) }

/-- Concrete quotes sitting exactly on the 0.05 % boundary: the same
symbol quoted at 2001 on NSE and 2000 on BSE, so the percentage
difference is `1/2000 × 100 = 0.05` exactly. -/
def stocksPctBoundary : List Stock :=
  [{ symbol := "ABC", exchange := "NSE", last_price := 2001,
     volume := Option.none, change_pct := Option.none },
   { symbol := "ABC", exchange := "BSE", last_price := 2000,
     volume := Option.none, change_pct := Option.none }]

/-- The single entry the evaluator returns on `stocksPctBoundary`. -/
def entryPctBoundary : ArbEntry :=
  { symbol := "ABC", nse_price := 2001, bse_price := 2000,
    price_difference := 1, price_difference_pct := 1 / 20,
    profit_per_share := 1, higher_exchange := "NSE", lower_exchange := "BSE",
    higher_price := 2001, lower_price := 2000, nse_volume := 0,
    bse_volume := 0, avg_volume := 0, arbitrage_score := 0,
    nse_change_pct := 0, bse_change_pct := 0, is_profitable := false }

/-- Concrete quotes with a 2 % spread: the same symbol quoted at 102 on
NSE and 100 on BSE, with volumes. -/
def stocksHighSpread : List Stock :=
  [{ symbol := "XYZ", exchange := "NSE", last_price := 102,
     volume := Option.some 3000000, change_pct := Option.none },
   { symbol := "XYZ", exchange := "BSE", last_price := 100,
     volume := Option.some 1000000, change_pct := Option.none }]

/-- The single entry the evaluator returns on `stocksHighSpread`. -/
def entryHighSpread : ArbEntry :=
  { symbol := "XYZ", nse_price := 102, bse_price := 100,
    price_difference := 2, price_difference_pct := 2,
    profit_per_share := 2, higher_exchange := "NSE", lower_exchange := "BSE",
    higher_price := 102, lower_price := 100, nse_volume := 3000000,
    bse_volume := 1000000, avg_volume := 2000000, arbitrage_score := 4,
    nse_change_pct := 0, bse_change_pct := 0, is_profitable := true }

/-- Concrete quotes with a profitable ≈1.01 % spread: the same symbol
quoted at 100 on NSE and 99 on BSE (`100/99 ≈ 1.0101 > 0.05`). -/
def stocksProfitablePair : List Stock :=
  [{ symbol := "PQR", exchange := "NSE", last_price := 100,
     volume := Option.none, change_pct := Option.none },
   { symbol := "PQR", exchange := "BSE", last_price := 99,
     volume := Option.none, change_pct := Option.none }]

/-- A concrete out-of-order event history, timestamped T+2, T+0, T+1. -/
def eventsOutOfOrder : List OrderEvent :=
  [{ status := Option.some "COMPLETE", filled_quantity := Option.some 10,
     pending_quantity := Option.some 0,
     exchange_timestamp := Option.some "2024-01-15 14:30:27" },
   { status := Option.some "OPEN", filled_quantity := Option.some 0,
     pending_quantity := Option.some 10,
     exchange_timestamp := Option.some "2024-01-15 14:30:25" },
   { status := Option.some "OPEN", filled_quantity := Option.some 5,
     pending_quantity := Option.some 5,
     exchange_timestamp := Option.some "2024-01-15 14:30:26" }]

/-- A concrete history in which no event has a parseable timestamp: the
first event's timestamp is garbage, the second event's is missing. -/
def eventsAllUnparseable : List OrderEvent :=
  [{ status := Option.some "OPEN", filled_quantity := Option.some 0,
     pending_quantity := Option.some 0,
     exchange_timestamp := Option.some "not-a-date" },
   { status := Option.some "REJECTED", filled_quantity := Option.some 0,
     pending_quantity := Option.some 0, exchange_timestamp := Option.none }]

end Market

namespace Market

theorem mem_insertDescBy {α : Type} (key : α → ℚ) (x : α) (l : List α) (a : α) :
    a ∈ insertDescBy key x l ↔ a = x ∨ a ∈ l := by
  induction l with
  | nil => simp [insertDescBy]
  | cons y ys ih =>
      unfold insertDescBy
      split_ifs with h
      · simp
      · simp only [List.mem_cons, ih]
        tauto

theorem mem_sortDescBy {α : Type} (key : α → ℚ) (l : List α) (a : α) :
    a ∈ sortDescBy key l ↔ a ∈ l := by
  induction l with
  | nil => simp [sortDescBy]
  | cons x xs ih => simp [sortDescBy, mem_insertDescBy, ih]

/-- Every entry produced by the loop body carries the unconditional
profitability flag and sits at or above the threshold. -/
theorem arbEntryOfGroup_props (t : ℚ) (g : String × List (String × Stock))
    (e : ArbEntry) (h : arbEntryOfGroup t g = Option.some e) :
    e.is_profitable = decide ((0.05 : ℚ) < e.price_difference_pct) ∧
      t ≤ e.price_difference_pct := by
  unfold arbEntryOfGroup at h
  rcases hn : assocGet g.2 "NSE" with _ | nse_data <;> rw [hn] at h
  · exact absurd h (by simp)
  rcases hb : assocGet g.2 "BSE" with _ | bse_data <;> rw [hb] at h
  · exact absurd h (by simp)
  simp only at h
  split_ifs at h with h1 h2 h3
  · cases Option.some.inj h
    exact ⟨rfl, le_of_not_lt h2⟩
  · cases Option.some.inj h
    exact ⟨rfl, le_of_not_lt h2⟩

/-- The threshold only gates inclusion: the loop body at threshold `t`
returns exactly the entries the loop body at threshold `0` returns whose
percentage difference is at least `t`. -/
theorem arbEntryOfGroup_zero (t : ℚ) (g : String × List (String × Stock))
    (e : ArbEntry) :
    arbEntryOfGroup t g = Option.some e ↔
      (arbEntryOfGroup 0 g = Option.some e ∧ t ≤ e.price_difference_pct) := by
  unfold arbEntryOfGroup
  rcases hn : assocGet g.2 "NSE" with _ | nse_data
  · simp
  rcases hb : assocGet g.2 "BSE" with _ | bse_data
  · simp
  simp only
  by_cases h1 : 0 < nse_data.last_price ∧ 0 < bse_data.last_price
  · rw [if_pos h1, if_pos h1]
    set pct :=
      |nse_data.last_price - bse_data.last_price| /
        min nse_data.last_price bse_data.last_price * 100 with hpct
    have hpct0 : ¬ pct < 0 := by
      apply not_lt_of_le
      rw [hpct]
      exact mul_nonneg
        (div_nonneg (abs_nonneg _) (le_of_lt (lt_min h1.1 h1.2))) (by norm_num)
    rw [if_neg hpct0]
    by_cases h2 : pct < t
    · rw [if_pos h2]
      constructor
      · intro h
        exact absurd h (by simp)
      · rintro ⟨he, hle⟩
        cases Option.some.inj he
        exact absurd h2 (not_lt_of_le hle)
    · rw [if_neg h2]
      constructor
      · intro he
        refine ⟨he, ?_⟩
        cases Option.some.inj he
        exact le_of_not_lt h2
      · exact fun he => he.1
  · rw [if_neg h1, if_neg h1]
    simp

/-- Membership in the returned sequence comes from some symbol group. -/
theorem mem_calculate_arbitrage (data : List Stock) (t : ℚ) (e : ArbEntry) :
    e ∈ calculate_arbitrage_opportunities data t ↔
      ∃ g ∈ stockGroups data, arbEntryOfGroup t g = Option.some e := by
  unfold calculate_arbitrage_opportunities
  split_ifs with hd
  · subst hd
    simp [stockGroups]
  · rw [mem_sortDescBy]
    exact List.mem_filterMap

/-- `containsSub` decides list-infix containment. -/
theorem containsSub_iff (n h : List Char) :
    containsSub n h = true ↔ n <:+: h := by
  induction h with
  | nil =>
      simp only [containsSub, List.isEmpty_iff]
      constructor
      · intro hn
        simp [hn]
      · intro hn
        obtain ⟨s, t, hst⟩ := hn
        have := List.append_eq_nil.mp (List.append_eq_nil.mp hst).1
        simp [this.2]
  | cons c rest ih =>
      simp only [containsSub, Bool.or_eq_true, List.isPrefixOf_iff_prefix, ih]
      rw [List.infix_cons_iff]

/-- If `t` occurs in `s` and `u` occurs in `t`, then `u` occurs in `s`. -/
theorem strContains_of_contains {s : String} {t u : List Char}
    (h1 : u <:+: t) (h2 : containsSub t s.toList = true) :
    containsSub u s.toList = true :=
  (containsSub_iff u s.toList).mpr (h1.trans ((containsSub_iff t s.toList).mp h2))

/-- Membership after a dict assignment: the new pair or an old one. -/
theorem mem_assocSet {α : Type} (l : List (String × α)) (k : String) (v : α)
    (p : String × α) : p ∈ assocSet l k v → p = (k, v) ∨ p ∈ l := by
  induction l with
  | nil =>
      intro h
      simpa [assocSet] using h
  | cons q rest ih =>
      intro h
      unfold assocSet at h
      split_ifs at h with hk
      · rcases List.mem_cons.mp h with rfl | h2
        · exact Or.inl rfl
        · exact Or.inr (List.mem_cons.mpr (Or.inr h2))
      · rcases List.mem_cons.mp h with rfl | h2
        · exact Or.inr (by simp)
        · rcases ih h2 with h3 | h3
          · exact Or.inl h3
          · exact Or.inr (by simp [h3])

/-- Every instrument record the row loop produces has lot size ≥ 1. -/
theorem firstValidFut_lot_ge_one (m : List (String × ℤ)) (now : DateTime)
    (stock : String) :
    ∀ (rows : List InstRow) (fd : FutData),
      firstValidFut m now stock rows = Option.some fd → 1 ≤ fd.lot_size := by
  intro rows
  induction rows with
  | nil =>
      intro fd h
      exact absurd h (by simp [firstValidFut])
  | cons r rest ih =>
      intro fd h
      unfold firstValidFut at h
      dsimp only at h
      split at h
      · exact ih fd h
      · split_ifs at h <;>
          first
            | exact ih fd h
            | (cases Option.some.inj h; dsimp only; omega)

/-- Every instrument `futForStock` resolves has lot size ≥ 1. -/
theorem futForStock_lot_ge_one (m : List (String × ℤ))
    (instruments : List InstRow) (now : DateTime) (stock : String)
    (fd : FutData) (h : futForStock m instruments now stock = Option.some fd) :
    1 ≤ fd.lot_size := by
  unfold futForStock at h
  exact firstValidFut_lot_ge_one m now stock _ fd h

/-- The last element of a list sorted ascending by a key bounds every
element's key. -/
theorem sorted_getLast_max {α : Type} (key : α → ℕ) :
    ∀ (l : List α) (x : α),
      l.Sorted (fun a b => key a ≤ key b) → l.getLast? = Option.some x →
      ∀ a ∈ l, key a ≤ key x := by
  intro l
  induction l with
  | nil =>
      intro x _ hx
      exact absurd hx (by simp)
  | cons y ys ih =>
      intro x hs hx a ha
      cases ys with
      | nil =>
          simp only [List.getLast?] at hx
          cases hx
          simp only [List.mem_singleton] at ha
          subst ha
          exact le_refl _
      | cons z zs =>
          have hx' : (z :: zs).getLast? = Option.some x := by
            simpa [List.getLast?_cons_cons] using hx
          have hs' : (z :: zs).Sorted (fun a b => key a ≤ key b) :=
            (List.sorted_cons.mp hs).2
          rcases List.mem_cons.mp ha with rfl | ha'
          · have hy : key a ≤ key z := (List.sorted_cons.mp hs).1 z (by simp)
            have hz : key z ≤ key x :=
              ih x hs' hx' z (by simp)
            exact le_trans hy hz
          · exact ih x hs' hx' a ha'

end Market

/-- C7: the margin estimate is full notional `price × quantity` for the
delivery product (CNC) and the carry-forward product (NRML), exactly 30 %
of notional for the intraday product (MIS), and any unknown product type
defaults to the 30 % intraday heuristic. -/
theorem C7_margin_required (price quantity : ℚ) (product : String)
    (hprod : product ≠ "CNC" ∧ product ≠ "MIS" ∧ product ≠ "NRML") :
    Market.calculate_margin_required price quantity "CNC" = price * quantity ∧
    Market.calculate_margin_required price quantity "NRML" = price * quantity ∧
    Market.calculate_margin_required price quantity "MIS" =
      price * quantity * (30 / 100) ∧
    Market.calculate_margin_required price quantity product =
      price * quantity * (30 / 100) := by
  obtain ⟨h1, h2, h3⟩ := hprod
  refine ⟨rfl, rfl, rfl, ?_⟩
  simp [Market.calculate_margin_required, h1, h2, h3]

/-- C7 witness: the four margin rules evaluated at price 100, quantity 5,
with the unknown product `"XYZ"`. -/
theorem C7_margin_required_witness :
    Market.calculate_margin_required 100 5 "CNC" = 100 * 5 ∧
    Market.calculate_margin_required 100 5 "NRML" = 100 * 5 ∧
    Market.calculate_margin_required 100 5 "MIS" = 100 * 5 * (30 / 100) ∧
    Market.calculate_margin_required 100 5 "XYZ" = 100 * 5 * (30 / 100) :=
  C7_margin_required 100 5 "XYZ" (by decide)

/-- C2: every entry returned by `calculate_arbitrage_opportunities` has
`is_profitable` equal to the strict comparison
`price_difference_pct > 0.05`, for every value of the
`min_profit_threshold` parameter; in particular an entry whose percentage
difference is exactly 0.05 is flagged not profitable. -/
theorem C2_profit_flag_strict (data : List Market.Stock) (t : ℚ)
    (e : Market.ArbEntry)
    (h : e ∈ Market.calculate_arbitrage_opportunities data t) :
    e.is_profitable = decide ((0.05 : ℚ) < e.price_difference_pct) := by
  obtain ⟨g, _, hg⟩ := (Market.mem_calculate_arbitrage data t e).mp h
  exact (Market.arbEntryOfGroup_props t g e hg).1

/-- C2 witness: on a pair quoted at 2001 / 2000 the percentage difference
is exactly 0.05 and the returned entry is flagged not profitable. -/
theorem C2_profit_flag_strict_witness :
    Market.entryPctBoundary ∈
      Market.calculate_arbitrage_opportunities Market.stocksPctBoundary (1 / 20) ∧
    Market.entryPctBoundary.price_difference_pct = 0.05 ∧
    Market.entryPctBoundary.is_profitable =
      decide ((0.05 : ℚ) < Market.entryPctBoundary.price_difference_pct) ∧
    Market.entryPctBoundary.is_profitable = false := by
  have hs : ¬ ("NSE" : String) = "BSE" := by simp
  have hs' : ¬ ("BSE" : String) = "NSE" := by simp
  have hmem : Market.entryPctBoundary ∈
      Market.calculate_arbitrage_opportunities Market.stocksPctBoundary (1 / 20) := by
    norm_num [Market.calculate_arbitrage_opportunities, Market.stockGroups,
      Market.assocSet, Market.assocGet, Market.arbEntryOfGroup,
      Market.sortDescBy, Market.insertDescBy, Market.stocksPctBoundary,
      Market.entryPctBoundary, List.foldl, List.filterMap, hs, hs',
      decide_eq_false_iff_not, decide_eq_true_eq, List.cons_ne_nil]
  refine ⟨hmem, by norm_num [Market.entryPctBoundary], ?_, rfl⟩
  exact C2_profit_flag_strict Market.stocksPctBoundary (1 / 20)
    Market.entryPctBoundary hmem

/-- C10: the threshold is a hard lower bound on returned rows — every
entry in the sequence returned by `calculate_arbitrage_opportunities` has
`price_difference_pct ≥ min_profit_threshold`, for every quotes input and
every threshold value. -/
theorem C10_threshold_lower_bound (data : List Market.Stock) (t : ℚ)
    (e : Market.ArbEntry)
    (h : e ∈ Market.calculate_arbitrage_opportunities data t) :
    t ≤ e.price_difference_pct := by
  obtain ⟨g, _, hg⟩ := (Market.mem_calculate_arbitrage data t e).mp h
  exact (Market.arbEntryOfGroup_props t g e hg).2

/-- C10 witness: with threshold 1, the entry returned for a 2 % spread
sits above the threshold. -/
theorem C10_threshold_lower_bound_witness :
    Market.entryHighSpread ∈
      Market.calculate_arbitrage_opportunities Market.stocksHighSpread 1 ∧
    (1 : ℚ) ≤ Market.entryHighSpread.price_difference_pct := by
  have hs : ¬ ("NSE" : String) = "BSE" := by simp
  have hs' : ¬ ("BSE" : String) = "NSE" := by simp
  have hmem : Market.entryHighSpread ∈
      Market.calculate_arbitrage_opportunities Market.stocksHighSpread 1 := by
    norm_num [Market.calculate_arbitrage_opportunities, Market.stockGroups,
      Market.assocSet, Market.assocGet, Market.arbEntryOfGroup,
      Market.sortDescBy, Market.insertDescBy, Market.stocksHighSpread,
      Market.entryHighSpread, List.foldl, List.filterMap, hs, hs',
      decide_eq_false_iff_not, decide_eq_true_eq, List.cons_ne_nil]
  exact ⟨hmem,
    C10_threshold_lower_bound Market.stocksHighSpread 1 Market.entryHighSpread hmem⟩

/-- C3 counterexample: a pair quoted at 100 / 99 has percentage
difference `100/99 ≈ 1.01 > 0.05`, hence is profitable — with the default
threshold it is returned and flagged profitable — yet with
`min_profit_threshold = 2` the returned sequence is empty: the threshold
also excludes profitable rows, contradicting the claim that every
profitable pair appears for every threshold value. -/
theorem C3_counterexample :
    Market.calculate_arbitrage_opportunities Market.stocksProfitablePair 2 = [] ∧
    (Market.calculate_arbitrage_opportunities Market.stocksProfitablePair
        (1 / 20)).map (fun e => (e.symbol, e.price_difference_pct, e.is_profitable)) =
      [("PQR", 100 / 99, true)] ∧
    (0.05 : ℚ) < 100 / 99 := by
  have hs : ¬ ("NSE" : String) = "BSE" := by simp
  have hs' : ¬ ("BSE" : String) = "NSE" := by simp
  refine ⟨?_, ?_, by norm_num⟩ <;>
    norm_num [Market.calculate_arbitrage_opportunities, Market.stockGroups,
      Market.assocSet, Market.assocGet, Market.arbEntryOfGroup,
      Market.sortDescBy, Market.insertDescBy, Market.stocksProfitablePair,
      List.foldl, List.filterMap, hs, hs',
      decide_eq_false_iff_not, decide_eq_true_eq, List.cons_ne_nil]

/-- C3 (amended): the `min_profit_threshold` parameter only gates which
rows are included, but it gates every row, profitable or not: an entry is
returned at threshold `t` exactly when it is returned at threshold `0`
and its `price_difference_pct` is at least `t`; the profitability flag is
never affected. -/
theorem C3_threshold_gates_all_rows (data : List Market.Stock) (t : ℚ)
    (e : Market.ArbEntry) :
    e ∈ Market.calculate_arbitrage_opportunities data t ↔
      (e ∈ Market.calculate_arbitrage_opportunities data 0 ∧
        t ≤ e.price_difference_pct) := by
  rw [Market.mem_calculate_arbitrage, Market.mem_calculate_arbitrage]
  constructor
  · rintro ⟨g, hgmem, hg⟩
    obtain ⟨h0, hle⟩ := (Market.arbEntryOfGroup_zero t g e).mp hg
    exact ⟨⟨g, hgmem, h0⟩, hle⟩
  · rintro ⟨⟨g, hgmem, h0⟩, hle⟩
    exact ⟨g, hgmem, (Market.arbEntryOfGroup_zero t g e).mpr ⟨h0, hle⟩⟩

/-- C4 counterexample: in a history in which no event has a parseable
timestamp (one garbage, one missing), `check_order_status` still reports
the status of the last event in gateway order — an event whose timestamp
is missing is the authoritative latest event, contradicting the claim
that such an event is never authoritative. -/
theorem C4_counterexample :
    Market.check_order_status Market.eventsAllUnparseable =
      Option.some "REJECTED" ∧
    Market.eventTimestamp
      { status := Option.some "REJECTED", filled_quantity := Option.some 0,
        pending_quantity := Option.some 0,
        exchange_timestamp := Option.none } = Option.none := by
  constructor
  · decide
  · decide

/-- C4 (amended): for every non-empty event history, `check_order_status`
sorts ascending by parsed timestamp (missing or unparseable timestamps
keyed as `datetime.min`) and reports the last event, whose key is maximal;
an event with no parseable timestamp is the authoritative latest only
when no event has a strictly greater key (for instance when no timestamp
parses at all). -/
theorem C4_latest_event_selected (order_history : List Market.OrderEvent)
    (hne : order_history ≠ []) :
    ∃ latest,
      (Market.sortEventsAsc order_history).getLast? = Option.some latest ∧
      latest ∈ order_history ∧
      (∀ e ∈ order_history,
        Market.get_timestamp e ≤ Market.get_timestamp latest) ∧
      Market.check_order_status order_history =
        Option.some (Market.displayStatus latest) ∧
      (∀ e ∈ order_history, Market.eventTimestamp e = Option.none →
        Market.get_timestamp e = Market.dtKey Market.dtMin) ∧
      ((∃ e ∈ order_history,
          Market.dtKey Market.dtMin < Market.get_timestamp e) →
        Market.eventTimestamp latest ≠ Option.none) := by
  haveI :
      IsTotal Market.OrderEvent
        (fun a b => Market.get_timestamp a ≤ Market.get_timestamp b) :=
    ⟨fun a b => le_total _ _⟩
  haveI :
      IsTrans Market.OrderEvent
        (fun a b => Market.get_timestamp a ≤ Market.get_timestamp b) :=
    ⟨fun _ _ _ => le_trans⟩
  have hperm : (Market.sortEventsAsc order_history).Perm order_history :=
    List.perm_insertionSort
      (fun a b => Market.get_timestamp a ≤ Market.get_timestamp b) order_history
  have hne' : Market.sortEventsAsc order_history ≠ [] := by
    intro hnil
    rw [hnil] at hperm
    exact hne hperm.symm.eq_nil
  have hlast := List.getLast?_eq_getLast (Market.sortEventsAsc order_history) hne'
  set latest := (Market.sortEventsAsc order_history).getLast hne' with hdef
  refine ⟨latest, hlast, ?_, ?_, ?_, ?_⟩
  · exact hperm.mem_iff.mp
      (List.mem_of_mem_getLast? (List.getLast_mem_getLast? hne'))
  · intro e he
    exact Market.sorted_getLast_max Market.get_timestamp
      (Market.sortEventsAsc order_history) latest
      (List.sorted_insertionSort _ order_history) hlast e
      (hperm.mem_iff.mpr he)
  · unfold Market.check_order_status
    rw [if_pos hne, hlast]
    rfl
  · constructor
    · intro e _ hnone
      unfold Market.get_timestamp
      rw [hnone]
    · rintro ⟨e, he, hgt⟩ hnone
      have hle : Market.get_timestamp e ≤ Market.get_timestamp latest :=
        Market.sorted_getLast_max Market.get_timestamp
          (Market.sortEventsAsc order_history) latest
          (List.sorted_insertionSort _ order_history) hlast e
          (hperm.mem_iff.mpr he)
      have hmin : Market.get_timestamp latest = Market.dtKey Market.dtMin := by
        unfold Market.get_timestamp
        rw [hnone]
      rw [hmin] at hle
      exact absurd (lt_of_lt_of_le hgt hle) (lt_irrefl _)

/-- C4 witness: the spec's own scenario — events timestamped
T+2, T+0, T+1 yield the T+2 status (`COMPLETE`, 10 filled). -/
theorem C4_latest_event_selected_witness :
    Market.check_order_status Market.eventsOutOfOrder =
      Option.some "COMPLETE (10 filled)" := by
  obtain ⟨latest, h1, _, _, h4, _, _⟩ :=
    C4_latest_event_selected Market.eventsOutOfOrder (by decide)
  have heval : (Market.sortEventsAsc Market.eventsOutOfOrder).getLast? =
      Option.some
        { status := Option.some "COMPLETE", filled_quantity := Option.some 10,
          pending_quantity := Option.some 0,
          exchange_timestamp := Option.some "2024-01-15 14:30:27" } := by
    decide
  rw [heval] at h1
  cases Option.some.inj h1
  rw [h4]
  decide

/-- C6 counterexample: the symbol `INR24` has two digits and contains
none of the four suffixed currency codes, so the claim classifies it as a
generic derivative (NFO); the code's token list also holds the bare `INR`
marker, so `auto_detect_exchange` routes it to the currency-derivatives
venue (CDS). -/
theorem C6_counterexample :
    Market.auto_detect_exchange "INR24" = "CDS" ∧
    Market.specAutoDetectExchange "INR24" = "NFO" := by
  constructor
  · decide
  · decide

/-- C6 (amended): the recognized tokens are the four fixed currency codes
suffixed with the INR marker plus the bare marker `INR` itself; since each
code ends in `INR`, the check is equivalent to containing `INR` — a
symbol with two or more digits is routed to the currency-derivatives
venue exactly when its uppercase form contains `INR`, to the derivatives
venue otherwise, and symbols with fewer than two digits are equity on the
primary cash venue. -/
theorem C6_auto_detect_token_list (symbol : String) :
    Market.auto_detect_exchange symbol =
      if 2 ≤ symbol.toList.countP Char.isDigit then
        if Market.strContains (Market.pyUpper symbol) "INR" then "CDS" else "NFO"
      else "NSE" := by
  have key : (Market.currencyTokens.any
      (fun curr => Market.strContains (Market.pyUpper symbol) curr)) =
      Market.strContains (Market.pyUpper symbol) "INR" := by
    cases hINR : Market.strContains (Market.pyUpper symbol) "INR"
    · rw [List.any_eq_false]
      intro tok htok
      rw [Market.currencyTokens] at htok
      have hsub : ("INR".toList : List Char) <:+: tok.toList := by
        fin_cases htok <;> decide
      intro hcontra
      rw [show Market.strContains (Market.pyUpper symbol) tok =
          Market.containsSub tok.toList (Market.pyUpper symbol).toList from rfl] at hcontra
      have := Market.strContains_of_contains hsub hcontra
      rw [show Market.containsSub "INR".toList (Market.pyUpper symbol).toList =
          Market.strContains (Market.pyUpper symbol) "INR" from rfl] at this
      rw [hINR] at this
      exact Bool.false_ne_true this
    · rw [List.any_eq_true]
      exact ⟨"INR", by rw [Market.currencyTokens]; simp, hINR⟩
  unfold Market.auto_detect_exchange
  rw [key]

/-- C8 counterexample: with an empty expiry string — which certainly
cannot be parsed under any of the four accepted date formats — the
function returns the raw symbol uppercased, hyphen included, not the
alphanumeric-only cleaned symbol the claim promises. -/
theorem C8_counterexample :
    Market.format_futures_order_symbol "REL-IANCE" "" = "REL-IANCE" ∧
    Market.cleanedSymbol "REL-IANCE" = "RELIANCE" ∧
    ("REL-IANCE" : String) ≠ "RELIANCE" := by
  refine ⟨by decide, by decide, by decide⟩

/-- C8 (amended): for a non-empty symbol and a non-empty expiry string,
the formatter returns the cleaned uppercase alphanumeric symbol followed
by the 2-digit year and uppercase 3-letter month when the stripped expiry
parses under one of the four accepted formats, and the cleaned bare
symbol alone when none parses; the empty-symbol / empty-expiry guard
instead returns the raw symbol uppercased (empty symbol gives the empty
string). The cleaned symbol contains only alphanumeric characters. -/
theorem C8_format_futures_symbol (stock_symbol expiry_str : String)
    (hs : stock_symbol ≠ "") (he : expiry_str ≠ "") :
    Market.format_futures_order_symbol stock_symbol expiry_str =
      (match Market.strptimeFirst (Market.pyStrip expiry_str)
          Market.pyFmtList with
        | Option.none => Market.cleanedSymbol stock_symbol
        | Option.some expiry_date =>
            Market.cleanedSymbol stock_symbol ++
              Market.strftimeYbUpper expiry_date) ∧
      (Market.cleanedSymbol stock_symbol).toList.all Char.isAlphanum = true := by
  constructor
  · unfold Market.format_futures_order_symbol
    rw [if_neg (by tauto)]
  · rw [List.all_eq_true]
    intro c hc
    exact (List.mem_filter.mp hc).2

/-- C8 witness: a parseable expiry yields `RELIANCE25NOV`; an
unparseable one falls back to the cleaned bare symbol. -/
theorem C8_format_futures_symbol_witness :
    Market.format_futures_order_symbol "RELIANCE" "2025-11-27" =
      "RELIANCE25NOV" ∧
    Market.format_futures_order_symbol "SBIN" "not-a-date" = "SBIN" := by
  have h1 := C8_format_futures_symbol "RELIANCE" "2025-11-27"
    (by decide) (by decide)
  have h2 := C8_format_futures_symbol "SBIN" "not-a-date"
    (by decide) (by decide)
  rw [h1.1, h2.1]
  constructor
  · decide
  · decide

/-- C1: for every cross-venue pair submission in which the gateway accepts
the Buy leg (with some order id) and rejects the Sell leg, the batch
result marks leg 0 accepted (success, order id present) and leg 1 not
accepted (failure, no order id); the Sell leg is submitted regardless of
the earlier leg's outcome — under every gateway both legs are placed, in
Buy-then-Sell order — and the orchestrator never issues a cancellation. -/
theorem C1_mixed_pair_no_cancellation
    (g : Market.OrderRequest → Except String String) (opp : Market.ArbEntry)
    (quantity : ℤ) (oid msg : String)
    (hbuy : g (Market.arbBuyRequest opp quantity) = Except.ok oid)
    (hsell : g (Market.arbSellRequest opp quantity) = Except.error msg) :
    ((Market.place_arbitrage_orders g opp quantity).1.map
        (fun r => (r.result.success, r.result.order_id)) =
      [(true, Option.some oid), (false, (Option.none : Option String))]) ∧
    (∀ g2 : Market.OrderRequest → Except String String,
      (Market.place_arbitrage_orders g2 opp quantity).2 =
        [Market.GatewayAction.placeOrder (Market.arbBuyRequest opp quantity),
         Market.GatewayAction.placeOrder (Market.arbSellRequest opp quantity)]) ∧
    (∀ g2 : Market.OrderRequest → Except String String,
      ∀ a ∈ (Market.place_arbitrage_orders g2 opp quantity).2,
      ∀ i, a ≠ Market.GatewayAction.cancelOrder i) := by
  have e1 : Market.pyUpper "BUY" = "BUY" := by decide
  have e2 : Market.pyUpper "SELL" = "SELL" := by decide
  have e3 : Market.pyUpper "MIS" = "MIS" := by decide
  have e4 : Market.pyUpper "LIMIT" = "LIMIT" := by decide
  have e5 : Market.pyUpper "BSE" = "BSE" := by decide
  have e6 : Market.pyUpper "NSE" = "NSE" := by decide
  have key : ∀ g2 : Market.OrderRequest → Except String String,
      Market.place_arbitrage_orders g2 opp quantity =
        (({ order :=
              { transaction_type := Option.none, action := Option.some "BUY",
                market := Option.some "CASH", symbol := opp.symbol,
                exchange := if opp.higher_exchange = "NSE" then "BSE" else "NSE",
                quantity := quantity,
                price := Option.some (if opp.higher_exchange = "NSE" then
                  opp.bse_price else opp.nse_price),
                product := Option.some "MIS",
                order_type := Option.some "LIMIT" },
            result := (Market.place_order g2
              (Option.some opp.symbol)
              (if opp.higher_exchange = "NSE" then "BSE" else "NSE") "BUY"
              quantity
              (Option.some (if opp.higher_exchange = "NSE" then
                opp.bse_price else opp.nse_price))
              "MIS" "LIMIT" Option.none Option.none Option.none Option.none
              Option.none Option.none Option.none).1 } : Market.OrderReport) ::
          [{ order :=
              { transaction_type := Option.none, action := Option.some "SELL",
                market := Option.some "CASH", symbol := opp.symbol,
                exchange := if opp.higher_exchange = "NSE" then "NSE" else "BSE",
                quantity := quantity,
                price := Option.some (if opp.higher_exchange = "NSE" then
                  opp.nse_price else opp.bse_price),
                product := Option.some "MIS",
                order_type := Option.some "LIMIT" },
             result := (Market.place_order g2
              (Option.some opp.symbol)
              (if opp.higher_exchange = "NSE" then "NSE" else "BSE") "SELL"
              quantity
              (Option.some (if opp.higher_exchange = "NSE" then
                opp.nse_price else opp.bse_price))
              "MIS" "LIMIT" Option.none Option.none Option.none Option.none
              Option.none Option.none Option.none).1 }],
         [Market.GatewayAction.placeOrder (Market.arbBuyRequest opp quantity),
          Market.GatewayAction.placeOrder (Market.arbSellRequest opp quantity)]) := by
    intro g2
    by_cases h : opp.higher_exchange = "NSE" <;>
      simp [Market.place_arbitrage_orders, Market.execute_order_sequence,
        Market.place_order, Market.buildOrderRequest, Market.arbBuyRequest,
        Market.arbSellRequest, Market.transaction_map, Market.product_map,
        Market.order_type_map, Market.exchange_map, Market.assocGet,
        Market.VARIETY_REGULAR, Market.TRANSACTION_TYPE_BUY,
        Market.TRANSACTION_TYPE_SELL, Market.PRODUCT_MIS,
        Market.ORDER_TYPE_LIMIT, Market.ORDER_TYPE_MARKET,
        Market.EXCHANGE_NSE, Market.EXCHANGE_BSE,
        e1, e2, e3, e4, e5, e6, h]
  have hbreq : Market.buildOrderRequest (Option.some opp.symbol)
      (if opp.higher_exchange = "NSE" then "BSE" else "NSE") "BUY" quantity
      (Option.some (if opp.higher_exchange = "NSE" then
        opp.bse_price else opp.nse_price))
      "MIS" "LIMIT" Option.none Option.none Option.none Option.none
      Option.none Option.none Option.none =
      Market.arbBuyRequest opp quantity := by
    by_cases h : opp.higher_exchange = "NSE" <;>
      simp [Market.buildOrderRequest, Market.arbBuyRequest,
        Market.transaction_map, Market.product_map, Market.order_type_map,
        Market.exchange_map, Market.assocGet, Market.VARIETY_REGULAR,
        Market.TRANSACTION_TYPE_BUY, Market.PRODUCT_MIS,
        Market.ORDER_TYPE_LIMIT, Market.ORDER_TYPE_MARKET,
        Market.EXCHANGE_NSE, Market.EXCHANGE_BSE, e1, e3, e4, e5, e6, h]
  have hsreq : Market.buildOrderRequest (Option.some opp.symbol)
      (if opp.higher_exchange = "NSE" then "NSE" else "BSE") "SELL" quantity
      (Option.some (if opp.higher_exchange = "NSE" then
        opp.nse_price else opp.bse_price))
      "MIS" "LIMIT" Option.none Option.none Option.none Option.none
      Option.none Option.none Option.none =
      Market.arbSellRequest opp quantity := by
    by_cases h : opp.higher_exchange = "NSE" <;>
      simp [Market.buildOrderRequest, Market.arbSellRequest,
        Market.transaction_map, Market.product_map, Market.order_type_map,
        Market.exchange_map, Market.assocGet, Market.VARIETY_REGULAR,
        Market.TRANSACTION_TYPE_SELL, Market.PRODUCT_MIS,
        Market.ORDER_TYPE_LIMIT, Market.ORDER_TYPE_MARKET,
        Market.EXCHANGE_NSE, Market.EXCHANGE_BSE, e2, e3, e4, e5, e6, h]
  refine ⟨?_, ?_, ?_⟩
  · rw [key g]
    simp only [List.map_cons, List.map_nil, Market.place_order, hbreq, hsreq,
      hbuy, hsell]
  · intro g2
    rw [key g2]
  · intro g2 a ha i
    rw [key g2] at ha
    simp only [List.mem_cons, List.not_mem_nil, or_false] at ha
    rcases ha with h | h <;> (subst h; intro hcon; cases hcon)

/-- C1 witness: against a gateway that accepts buys as `ORD1` and rejects
everything else, the demo pair submission returns leg 0 accepted with the
id and leg 1 rejected with no id. -/
theorem C1_mixed_pair_no_cancellation_witness :
    Market.gwBuyOnly (Market.arbBuyRequest Market.oppPairDemo 10) =
      Except.ok "ORD1" ∧
    Market.gwBuyOnly (Market.arbSellRequest Market.oppPairDemo 10) =
      Except.error "Insufficient funds" ∧
    ((Market.place_arbitrage_orders Market.gwBuyOnly Market.oppPairDemo
        10).1.map (fun r => (r.result.success, r.result.order_id)) =
      [(true, Option.some "ORD1"), (false, (Option.none : Option String))]) := by
  have h := C1_mixed_pair_no_cancellation Market.gwBuyOnly Market.oppPairDemo
    10 "ORD1" "Insufficient funds" (by decide) (by decide)
  exact ⟨by decide, by decide, h.1⟩

/-- C5: for every gateway, lot-size override table, opportunity and
requested lots, `place_cash_futures_orders` with the delivery cash
product (CNC) and the carry-forward futures product (NRML) submits
exactly two legs in order — Buy the cash symbol on NSE with CNC, then
Sell the resolved futures symbol on NFO with NRML — both as market
orders with no price sent, each with quantity `lot size × lots`; the
clamped lots value is always at least 1, and missing, zero, negative or
non-integer lots become exactly 1. -/
theorem C5_cash_futures_sequence
    (g : Market.OrderRequest → Except String String)
    (m : List (String × ℤ)) (opp : Market.CFOpportunity)
    (lots : Market.PyVal) :
    ((Market.place_cash_futures_orders g m opp lots "CNC" "NRML").1.map
        (fun leg => (leg.action, leg.market, leg.exchange, leg.symbol,
          leg.quantity, leg.lots, leg.lot_size, leg.price)) =
      [("BUY", "CASH", "NSE", Option.some opp.symbol,
          Market.resolveCFLotSize m opp * Market.clampLots lots,
          Market.clampLots lots, Market.resolveCFLotSize m opp,
          (Option.none : Option ℚ)),
       ("SELL", "FUTURES", "NFO",
          Market.pyOrStr opp.futures_symbol_api opp.futures_symbol,
          Market.resolveCFLotSize m opp * Market.clampLots lots,
          Market.clampLots lots, Market.resolveCFLotSize m opp,
          Option.none)]) ∧
    ((Market.place_cash_futures_orders g m opp lots "CNC" "NRML").2.map
        Market.GatewayAction.reqSummary =
      [Option.some ("BUY", "NSE", "CNC", "MARKET", (Option.none : Option ℚ),
          Market.resolveCFLotSize m opp * Market.clampLots lots),
       Option.some ("SELL", "NFO", "NRML", "MARKET", Option.none,
          Market.resolveCFLotSize m opp * Market.clampLots lots)]) ∧
    1 ≤ Market.clampLots lots ∧
    1 ≤ Market.resolveCFLotSize m opp ∧
    (Market.pyInt (Market.pyOr lots (Market.PyVal.int 1)) = Option.none →
      Market.clampLots lots = 1) ∧
    (∀ n : ℤ, lots = Market.PyVal.int n → n ≤ 0 →
      Market.clampLots lots = 1) ∧
    (lots = Market.PyVal.none → Market.clampLots lots = 1) := by
  have e1 : Market.pyUpper "BUY" = "BUY" := by decide
  have e2 : Market.pyUpper "SELL" = "SELL" := by decide
  have e3 : Market.pyUpper "CNC" = "CNC" := by decide
  have e4 : Market.pyUpper "NRML" = "NRML" := by decide
  have e5 : Market.pyUpper "MARKET" = "MARKET" := by decide
  have e6 : Market.pyUpper "NSE" = "NSE" := by decide
  have e7 : Market.pyUpper "NFO" = "NFO" := by decide
  refine ⟨?_, ?_, ?_, ?_, ?_, ?_, ?_⟩
  · simp [Market.place_cash_futures_orders, Market.place_order,
      Market.buildOrderRequest, Market.transaction_map, Market.product_map,
      Market.order_type_map, Market.exchange_map, Market.assocGet,
      Market.VARIETY_REGULAR, Market.TRANSACTION_TYPE_BUY,
      Market.TRANSACTION_TYPE_SELL, Market.PRODUCT_CNC, Market.PRODUCT_NRML,
      Market.ORDER_TYPE_MARKET, Market.EXCHANGE_NSE, Market.EXCHANGE_NFO,
      e1, e2, e3, e4, e5, e6, e7]
  · simp [Market.place_cash_futures_orders, Market.place_order,
      Market.buildOrderRequest, Market.transaction_map, Market.product_map,
      Market.order_type_map, Market.exchange_map, Market.assocGet,
      Market.GatewayAction.reqSummary, Market.VARIETY_REGULAR,
      Market.TRANSACTION_TYPE_BUY, Market.TRANSACTION_TYPE_SELL,
      Market.PRODUCT_CNC, Market.PRODUCT_NRML, Market.ORDER_TYPE_MARKET,
      Market.EXCHANGE_NSE, Market.EXCHANGE_NFO, e1, e2, e3, e4, e5, e6, e7]
  · simp only [Market.clampLots]
    split_ifs with h
    · omega
    · omega
  · simp only [Market.resolveCFLotSize]
    split_ifs with h
    · omega
    · omega
  · intro h
    simp [Market.clampLots, h]
  · rintro n rfl hn
    by_cases h0 : n = 0
    · subst h0
      decide
    · have hor : Market.pyOr (Market.PyVal.int n) (Market.PyVal.int 1) =
          Market.PyVal.int n := by
        simp [Market.pyOr, Market.PyVal.truthy, h0]
      simp only [Market.clampLots, hor, Market.pyInt, Option.getD_some]
      rw [if_pos (by omega)]
  · rintro rfl
    decide

/-- C5 witness: missing lots become 1; with the demo opportunity's lot
size 50 both market-order legs go out with quantity 50, CNC then NRML. -/
theorem C5_cash_futures_sequence_witness :
    Market.clampLots Market.PyVal.none = 1 ∧
    ((Market.place_cash_futures_orders Market.gwAcceptAll [] Market.cfOppDemo
        Market.PyVal.none "CNC" "NRML").2.map
        Market.GatewayAction.reqSummary =
      [Option.some ("BUY", "NSE", "CNC", "MARKET", (Option.none : Option ℚ),
          50),
       Option.some ("SELL", "NFO", "NRML", "MARKET", Option.none, 50)]) := by
  have h := C5_cash_futures_sequence Market.gwAcceptAll [] Market.cfOppDemo
    Market.PyVal.none
  refine ⟨h.2.2.2.2.2.2 rfl, ?_⟩
  have hA : Market.resolveCFLotSize [] Market.cfOppDemo = 50 := by decide
  have hB : Market.clampLots Market.PyVal.none = 1 := by decide
  rw [h.2.1, hA, hB]
  norm_num

/-- C9: lot sizes are always at least 1 — every instrument record
`get_futures_contracts` resolves carries `lot_size ≥ 1` whatever the
override table or the venue rows supply, and every leg
`place_cash_futures_orders` submits carries `lot_size ≥ 1`, with the
leg quantity computed from exactly that clamped value
(`quantity = lot_size × lots`). -/
theorem C9_lot_size_clamped :
    (∀ (m : List (String × ℤ)) (instruments : List Market.InstRow)
        (now : Market.DateTime) (stocks : List String)
        (p : String × Market.FutData),
      p ∈ Market.get_futures_contracts m instruments now stocks →
      1 ≤ p.2.lot_size) ∧
    (∀ (g : Market.OrderRequest → Except String String)
        (m : List (String × ℤ)) (opp : Market.CFOpportunity)
        (lots : Market.PyVal) (cash_product futures_product : String)
        (leg : Market.CFLegReport),
      leg ∈ (Market.place_cash_futures_orders g m opp lots cash_product
        futures_product).1 →
      1 ≤ leg.lot_size ∧ leg.quantity = leg.lot_size * leg.lots) := by
  constructor
  · intro m instruments now stocks
    suffices hgen : ∀ (rest : List String) (acc : List (String × Market.FutData)),
        (∀ p ∈ acc, 1 ≤ p.2.lot_size) →
        ∀ p ∈ rest.foldl
          (fun acc stock =>
            match Market.futForStock m instruments now stock with
            | Option.some fut_data => Market.assocSet acc stock fut_data
            | Option.none => acc) acc, 1 ≤ p.2.lot_size by
      intro p hp
      exact hgen stocks [] (by simp) p hp
    intro rest
    induction rest with
    | nil =>
        intro acc hacc p hp
        exact hacc p hp
    | cons s tail ih =>
        intro acc hacc p hp
        rw [List.foldl_cons] at hp
        refine ih _ ?_ p hp
        intro q hq
        cases hf : Market.futForStock m instruments now s with
        | none =>
            rw [hf] at hq
            exact hacc q hq
        | some fd =>
            rw [hf] at hq
            rcases Market.mem_assocSet acc s fd q hq with rfl | h2
            · exact Market.futForStock_lot_ge_one m instruments now s fd hf
            · exact hacc q h2
  · intro g m opp lots cash_product futures_product leg hleg
    have hres : 1 ≤ Market.resolveCFLotSize m opp := by
      simp only [Market.resolveCFLotSize]
      split_ifs <;> omega
    simp only [Market.place_cash_futures_orders] at hleg
    rcases List.mem_cons.mp hleg with rfl | h2
    · exact ⟨hres, rfl⟩
    · rcases List.mem_cons.mp h2 with rfl | h3
      · exact ⟨hres, rfl⟩
      · exact absurd h3 (List.not_mem_nil _)

/-- C9 witness: a venue row reporting lot size 0 resolves to an
instrument with lot size 1, and a leg submitted from an opportunity
carrying lot size −5 goes out with lot size 1 and quantity
`1 × lots`. -/
theorem C9_lot_size_clamped_witness :
    (("ABB", Market.fdDemo) ∈
      Market.get_futures_contracts [] [Market.instRowDemo] Market.nowDemo
        ["ABB"]) ∧
    (1 : ℤ) ≤ Market.fdDemo.lot_size ∧
    Market.fdDemo.lot_size = 1 ∧
    Market.instRowDemo.lot_size = Market.PyVal.int 0 ∧
    ((Market.place_cash_futures_orders Market.gwAcceptAll [] Market.cfOppNeg
        (Market.PyVal.int 2) "CNC" "NRML").1.map
        (fun leg => (leg.lot_size, leg.lots, leg.quantity)) =
      [(1, 2, 2), (1, 2, 2)]) := by
  have hmem : ("ABB", Market.fdDemo) ∈
      Market.get_futures_contracts [] [Market.instRowDemo] Market.nowDemo
        ["ABB"] := by decide
  refine ⟨hmem, C9_lot_size_clamped.1 [] [Market.instRowDemo] Market.nowDemo
    ["ABB"] ("ABB", Market.fdDemo) hmem, by decide, by decide, ?_⟩
  have hleg : ∀ leg ∈ (Market.place_cash_futures_orders Market.gwAcceptAll []
      Market.cfOppNeg (Market.PyVal.int 2) "CNC" "NRML").1,
      1 ≤ leg.lot_size ∧ leg.quantity = leg.lot_size * leg.lots :=
    fun leg h => C9_lot_size_clamped.2 Market.gwAcceptAll [] Market.cfOppNeg
      (Market.PyVal.int 2) "CNC" "NRML" leg h
  decide
